import Mathlib

/-!
Shallow embedding of the harvester GPU-miner core: the header codec
(hex parsing, 76-byte serialization, SHA-256 message preprocessing,
big-endian word parsing), the buffer fabric validation, the batch
executor's readback scan and mapping discipline, the workgroup-size
autotuner, and the Bitcoin-Core bridge.  Machine integers are modelled
as `Nat`; byte arrays as `List Nat`; fallible operations as `Except`.
-/

/-! ## Machine-integer byte conversions (u32 from/to LE and BE bytes) -/

/-- Rust `u32::from_be_bytes` on a 4-byte slice. -/
def u32_from_be_bytes (bytes : List Nat) : Nat :=
  match bytes with
  | [b0, b1, b2, b3] => ((b0 * 256 + b1) * 256 + b2) * 256 + b3
  | _ => 0

/-- Big-endian 4-byte encoding of a u32 value. -/
def u32_to_be_bytes (w : Nat) : List Nat :=
  [w / 16777216 % 256, w / 65536 % 256, w / 256 % 256, w % 256]

/-- Rust `u32::from_le_bytes` on a 4-byte slice. -/
def u32_from_le_bytes (bytes : List Nat) : Nat :=
  match bytes with
  | [b0, b1, b2, b3] => ((b3 * 256 + b2) * 256 + b1) * 256 + b0
  | _ => 0

/-- Rust `u32::to_le_bytes`. -/
def u32_to_le_bytes (w : Nat) : List Nat :=
  [w % 256, w / 256 % 256, w / 65536 % 256, w / 16777216 % 256]

/-! ## Hex decoding (the `hex` crate as used by `BlockHeader::new`) -/

/-- Errors of the `hex` crate's `FromHexError`. -/
inductive HexError where
  | OddLength
  | InvalidHexCharacter
  | InvalidStringLength
deriving DecidableEq

/-- Value of one hex digit, accepting both cases, as in `hex::decode`. -/
def hex_digit_val (c : Char) : Option Nat :=
  if ('0' ≤ c ∧ c ≤ '9') then some (c.toNat - '0'.toNat)
  else if ('a' ≤ c ∧ c ≤ 'f') then some (c.toNat - 'a'.toNat + 10)
  else if ('A' ≤ c ∧ c ≤ 'F') then some (c.toNat - 'A'.toNat + 10)
  else none

/-- Pairwise decoding of an even-length hex string into bytes. -/
def hex_decode_pairs (s : List Char) : Except HexError (List Nat) :=
  match s with
  | [] => Except.ok []
  | [_] => Except.error HexError.OddLength
  | c1 :: c2 :: rest =>
    match hex_digit_val c1, hex_digit_val c2, hex_decode_pairs rest with
    | some hi, some lo, Except.ok tail => Except.ok ((hi * 16 + lo) :: tail)
    | none, _, _ => Except.error HexError.InvalidHexCharacter
    | some _, none, _ => Except.error HexError.InvalidHexCharacter
    | some _, some _, Except.error e => Except.error e

/-- `hex::decode`: odd input length is rejected, then digit pairs become bytes. -/
def hex_decode (s : List Char) : Except HexError (List Nat) :=
  if s.length % 2 = 1 then Except.error HexError.OddLength
  else hex_decode_pairs s

/-! ## Header codec (`BlockHeader` in the core library) -/

/-- The `BlockHeader` struct: version, prev_hash, merkle_root, timestamp, bits. -/
structure BlockHeader where
  version : Nat
  prev_hash : List Nat
  merkle_root : List Nat
  timestamp : Nat
  bits : Nat
deriving DecidableEq

/-- `BlockHeader::hex_to_u32`: decode hex, require 4 bytes, read little-endian. -/
def BlockHeader.hex_to_u32 (s : List Char) : Except HexError Nat :=
  match hex_decode s with
  | Except.error e => Except.error e
  | Except.ok bytes =>
    if bytes.length = 4 then Except.ok (u32_from_le_bytes bytes)
    else Except.error HexError.InvalidStringLength

/-- `BlockHeader::hex_to_32_bytes`: decode hex, require exactly 32 bytes. -/
def BlockHeader.hex_to_32_bytes (s : List Char) : Except HexError (List Nat) :=
  match hex_decode s with
  | Except.error e => Except.error e
  | Except.ok bytes =>
    if bytes.length = 32 then Except.ok bytes
    else Except.error HexError.InvalidStringLength

/-- `BlockHeader::new`: parse the five hex fields in order; each `?` operator
returns the first error, so the conversions are a nested match chain. -/
def BlockHeader.new (version prev_hash merkle_root timestamp bits : List Char) :
    Except HexError BlockHeader :=
  match BlockHeader.hex_to_u32 version with
  | Except.error e => Except.error e
  | Except.ok version =>
    match BlockHeader.hex_to_32_bytes prev_hash with
    | Except.error e => Except.error e
    | Except.ok prev_hash =>
      match BlockHeader.hex_to_32_bytes merkle_root with
      | Except.error e => Except.error e
      | Except.ok merkle_root =>
        match BlockHeader.hex_to_u32 timestamp with
        | Except.error e => Except.error e
        | Except.ok timestamp =>
          match BlockHeader.hex_to_u32 bits with
          | Except.error e => Except.error e
          | Except.ok bits =>
            Except.ok { version := version, prev_hash := prev_hash,
                        merkle_root := merkle_root, timestamp := timestamp,
                        bits := bits }

/-- `BlockHeader::to_bytes`: the 76-byte serialization.  The source writes the
fields into a fixed `[0u8; 76]` at ranges 0..4, 4..36, 36..68, 68..72, 72..76;
with `prev_hash` and `merkle_root` of length 32 those writes are disjoint and
cover the array, so the result is this concatenation. -/
def BlockHeader.to_bytes (h : BlockHeader) : List Nat :=
  u32_to_le_bytes h.version ++ h.prev_hash ++ h.merkle_root ++
    u32_to_le_bytes h.timestamp ++ u32_to_le_bytes h.bits

/-- `sha256_preprocess`: pad an 80-byte header to the 128-byte SHA-256 message.
Mirrors the source: start from `[0u8; 128]`, copy the header into bytes 0..80,
set byte 80 to `0x80` and bytes 126, 127 to `0x02`, `0x80` (length 640 bits). -/
def sha256_preprocess (header : List Nat) : List Nat :=
  let padded := List.replicate 128 0
  let padded := header ++ padded.drop 80
  let padded := padded.set 80 0x80
  let padded := padded.set 126 0x02
  let padded := padded.set 127 0x80
  padded

/-- `sha256_parse_words`: reinterpret the padded message as big-endian u32
words, one per exact 4-byte chunk (`chunks_exact(4)` ignores any remainder). -/
def sha256_parse_words (header : List Nat) : List Nat :=
  match header with
  | b0 :: b1 :: b2 :: b3 :: rest =>
    u32_from_be_bytes [b0, b1, b2, b3] :: sha256_parse_words rest
  | _ => []

/-- Big-endian re-serialization of a word array, 4 bytes per word.  This is the
reference encoding used to state the parse_words round-trip. -/
def serialize_words_be (words : List Nat) : List Nat :=
  match words with
  | [] => []
  | w :: rest => u32_to_be_bytes w ++ serialize_words_be rest

/-! ## Miner state and buffer fabric (`wgpu-sha256-miner`) -/

/-- The `GpuMiner` state, restricted to the fields the claims are about.
`pipeline_wg` is the workgroup size the current pipeline's shader was compiled
with (`create_shader_with_wg_size` takes a `u16`, hence the `% 65536` casts);
`staging_mapped` tracks whether the staging buffer is currently mapped. -/
structure MinerState where
  batch_size : Nat
  wg_size : Nat
  pipeline_wg : Nat
  staging_mapped : Bool
deriving DecidableEq

/-- `GpuMiner::new`: batch size 2^20, workgroup size defaulting to 64, shader
compiled with the workgroup size cast to u16, staging buffer unmapped. -/
def GpuMiner.new (wg_size : Option Nat) : MinerState :=
  let batch_size := 1048576
  let wg :=
    match wg_size with
    | some x => x
    | none => 64
  { batch_size := batch_size, wg_size := wg, pipeline_wg := wg % 65536,
    staging_mapped := false }

/-- `create_buffers device batch_size`: validation precedes allocation.  The
`validation_error` flag stands for the backend validation error surfaced by
`pop_error_scope`.  The first component is the result (buffer sizes on
success); the second lists the sizes of the buffers allocated during the call,
so `[]` means the function returned before any allocation. -/
def create_buffers (batch_size : Nat) (validation_error : Bool) :
    Except String (List Nat) × List Nat :=
  if ¬ batch_size * 4 < 2 ^ 32 then
    (Except.error "Batch size too large, caused overflow", [])
  else if batch_size = 0 then
    (Except.error "Batch size can't be zero.", [])
  else
    let allocated := [128, batch_size * 4, batch_size * 4]
    if validation_error then (Except.error "Buffer creation failed", allocated)
    else (Except.ok allocated, allocated)

/-! ## Batch executor (`GpuMiner::run_batch`) -/

/-- The host-side scan in `run_batch`: iterate the readback vector in lane
order and return the first non-zero entry. -/
def scan_output (res : List Nat) : Option Nat :=
  match res with
  | [] => none
  | nonce :: rest => if nonce ≠ 0 then some nonce else scan_output rest

/-- `GpuMiner::run_batch`.  `words` is the uploaded header-word array,
`staging` the content of the staging buffer after the copy-out (produced by
the shader dispatch, which is outside this embedding), and `map_ok` the result
delivered to the `map_async` callback.  On a successful mapping the staging
buffer is mapped, read, and explicitly unmapped before the scan result is
returned; on a mapping failure the buffer never entered the mapped state and
the error surfaces through the early `?` return. -/
def run_batch (words : List Nat) (map_ok : Bool) (staging : List Nat)
    (s : MinerState) : Except String (Option Nat) × MinerState :=
  if map_ok then
    let s := { s with staging_mapped := true }
    let res := staging
    let s := { s with staging_mapped := false }
    (Except.ok (scan_output res), s)
  else
    (Except.error "Mapping from GPU failed.", { s with staging_mapped := false })

/-! ## Autotuner (`GpuMiner::autotune`) -/

/-- The autotune sweep: `while base.pow(n) <= max`, rebuild the shader with
workgroup size `2^n` (cast to u16), install it, time 20 batches, remember the
fastest size, and step to the next power of two.  `times n` is the wall time
observed for the batches at size `2^n`; `tested` records the sizes the sweep
has tested so far (the source prints each).  The timed `run_batch` calls leave
the mapping state as they found it and do not touch the workgroup fields. -/
def autotune_loop (max : Nat) (times : Nat → Nat) (n best_size best_time : Nat)
    (tested : List Nat) (s : MinerState) : Nat × Nat × List Nat × MinerState :=
  if h : 2 ^ n ≤ max then
    if times n < best_time then
      autotune_loop max times (n + 1) (2 ^ n) (times n) (tested ++ [2 ^ n])
        { s with wg_size := 2 ^ n, pipeline_wg := 2 ^ n % 65536 }
    else
      autotune_loop max times (n + 1) best_size best_time (tested ++ [2 ^ n])
        { s with wg_size := 2 ^ n, pipeline_wg := 2 ^ n % 65536 }
  else (best_size, best_time, tested, s)
termination_by max + 1 - 2 ^ n
decreasing_by
  all_goals
    have h2 : 2 ^ n < 2 ^ (n + 1) := by
      have := Nat.one_le_two_pow (n := n)
      calc 2 ^ n < 2 ^ n + 2 ^ n := by omega
        _ = 2 ^ (n + 1) := by rw [Nat.pow_succ]; omega
    omega

/-- `GpuMiner::autotune`: sweep powers of two starting at `2^5 = 32` with
`best_size` initialized to 32 and `best_time` to `u128::MAX`, then install the
best size's pipeline and store `wg_size`.  Returns the final state together
with the list of sizes the sweep tested. -/
def autotune (max : Nat) (times : Nat → Nat) (s : MinerState) :
    MinerState × List Nat :=
  match autotune_loop max times 5 32 (2 ^ 128 - 1) [] s with
  | (best_size, _, tested, s) =>
    ({ s with pipeline_wg := best_size % 65536, wg_size := best_size }, tested)

/-! ## Bitcoin-Core bridge (`btccore-bridge`) -/

/-- A full block: 80-byte header plus transactions. -/
structure Block where
  header : List Nat
  transactions : List (List Nat)
deriving DecidableEq

/-- The BIP-0022 block template fields the bridge deserializes. -/
structure BlockTemplate where
  bits : String
  curtime : Nat
  height : Nat
  previousblockhash : String
  sigoplimit : Nat
  sizelimit : Nat
  transactions : List (List Nat)
  version : Nat
  coinbasevalue : Nat
deriving DecidableEq

/-- `construct_block`: the shipped implementation ignores the template and the
payout address and returns an all-zero header with no transactions. -/
def construct_block (template : BlockTemplate) (payout_address : String) : Block :=
  { header := List.replicate 80 0, transactions := [] }

/-- The bridge state: the cached block.  The RPC client and the channel sender
are external collaborators; the RPC call's outcome enters `update_block` as an
explicit `Except` argument. -/
structure Bridge where
  block : Option Block
deriving DecidableEq

/-- `Bridge::update_block`: fetch a template (here: its outcome is passed in),
construct a block from it, and cache the block. -/
def Bridge.update_block (b : Bridge) (template_result : Except String BlockTemplate)
    (payout_address : String) : Except String Bridge :=
  match template_result with
  | Except.error e => Except.error e
  | Except.ok template =>
    let blk := construct_block template payout_address
    Except.ok { b with block := some blk }

/-- `Bridge::get_current_header`: the cached block's header, if any. -/
def Bridge.get_current_header (b : Bridge) : Option (List Nat) :=
  match b.block with
  | some block => some block.header
  | none => none

/-! ## Concrete inputs used by witnesses -/

/-- Eight hex-digit zeros, a valid u32 field string. -/
def hex8 : List Char := List.replicate 8 '0'

/-- Sixty-four hex-digit zeros, a valid 32-byte field string. -/
def hex64 : List Char := List.replicate 64 '0'

/-- The header those all-zero hex fields parse to. -/
def hdr0 : BlockHeader :=
  { version := 0, prev_hash := List.replicate 32 0, merkle_root := List.replicate 32 0,
    timestamp := 0, bits := 0 }

/-- A block template with empty fields. -/
def tmpl0 : BlockTemplate :=
  { bits := "", curtime := 0, height := 0, previousblockhash := "", sigoplimit := 0,
    sizelimit := 0, transactions := [], version := 0, coinbasevalue := 0 }

/-- An empty payout address. -/
def payout0 : String := ""

/-! ## Helper lemmas: list slicing -/

theorem list_set_append_right {α : Type} (l₁ l₂ : List α) (i : Nat) (v : α)
    (h : l₁.length ≤ i) : (l₁ ++ l₂).set i v = l₁ ++ l₂.set (i - l₁.length) v := by
  induction l₁ generalizing i with
  | nil => simp
  | cons a t ih =>
    cases i with
    | zero => simp at h
    | succ j =>
      have h' : t.length ≤ j := by simpa using h
      show a :: (t ++ l₂).set j v = a :: (t ++ l₂.set (j + 1 - (a :: t).length) v)
      have hidx : j + 1 - (a :: t).length = j - t.length := by
        simp only [List.length_cons]
        omega
      rw [hidx, ih j h']

/-- Structure of the padded message for an 80-byte header. -/
theorem sha256_preprocess_eq (header : List Nat) (h : header.length = 80) :
    sha256_preprocess header =
      header ++ 0x80 :: (List.replicate 45 0 ++ [0x02, 0x80]) := by
  show (((header ++ (List.replicate 128 0).drop 80).set 80 0x80).set 126
      0x02).set 127 0x80 = header ++ 0x80 :: (List.replicate 45 0 ++ [0x02, 0x80])
  have hdrop : (List.replicate 128 (0 : Nat)).drop 80 = List.replicate 48 0 := by
    simp [List.drop_replicate]
  rw [hdrop]
  rw [list_set_append_right header _ 80 _ (by omega)]
  rw [list_set_append_right header _ 126 _ (by omega)]
  rw [list_set_append_right header _ 127 _ (by omega)]
  rw [h]
  exact congrArg (header ++ ·) (by decide)

/-! ## Helper lemmas: word parsing -/

theorem sha256_parse_words_getElem? (i : Nat) :
    ∀ P : List Nat, 4 * i + 4 ≤ P.length →
      (sha256_parse_words P)[i]? = some (u32_from_be_bytes ((P.drop (4 * i)).take 4)) := by
  induction i with
  | zero =>
    intro P h
    rcases P with _ | ⟨b0, P⟩
    · simp at h
    rcases P with _ | ⟨b1, P⟩
    · simp at h
    rcases P with _ | ⟨b2, P⟩
    · simp at h
    rcases P with _ | ⟨b3, rest⟩
    · simp at h
    show (u32_from_be_bytes [b0, b1, b2, b3] :: sha256_parse_words rest)[0]? = _
    rw [List.getElem?_cons_zero]
    rfl
  | succ i ih =>
    intro P h
    rcases P with _ | ⟨b0, P⟩
    · simp at h
    rcases P with _ | ⟨b1, P⟩
    · simp at h
    rcases P with _ | ⟨b2, P⟩
    · simp at h
    rcases P with _ | ⟨b3, rest⟩
    · simp at h
    have hrest : 4 * i + 4 ≤ rest.length := by
      simp only [List.length_cons] at h
      omega
    show (u32_from_be_bytes [b0, b1, b2, b3] :: sha256_parse_words rest)[i + 1]? = _
    rw [List.getElem?_cons_succ, ih rest hrest]
    have hidx : 4 * (i + 1) = 4 * i + 1 + 1 + 1 + 1 := by omega
    rw [hidx]
    rfl

theorem sha256_parse_words_length :
    ∀ fuel P, P.length ≤ fuel → (sha256_parse_words P).length = P.length / 4 := by
  intro fuel
  induction fuel with
  | zero =>
    intro P h
    have hnil : P = [] := List.eq_nil_of_length_eq_zero (by omega)
    subst hnil
    rfl
  | succ fuel ih =>
    intro P h
    rcases P with _ | ⟨b0, P⟩
    · show ([] : List Nat).length = _
      norm_num
    rcases P with _ | ⟨b1, P⟩
    · show ([] : List Nat).length = _
      norm_num
    rcases P with _ | ⟨b2, P⟩
    · show ([] : List Nat).length = _
      norm_num
    rcases P with _ | ⟨b3, rest⟩
    · show ([] : List Nat).length = _
      norm_num
    have hrest : rest.length ≤ fuel := by
      simp only [List.length_cons] at h
      omega
    show (sha256_parse_words rest).length + 1 = _
    rw [ih rest hrest]
    simp only [List.length_cons]
    omega

theorem u32_be_bytes_roundtrip (b0 b1 b2 b3 : Nat) (h0 : b0 < 256) (h1 : b1 < 256)
    (h2 : b2 < 256) (h3 : b3 < 256) :
    u32_to_be_bytes (u32_from_be_bytes [b0, b1, b2, b3]) = [b0, b1, b2, b3] := by
  have e : u32_from_be_bytes [b0, b1, b2, b3] = ((b0 * 256 + b1) * 256 + b2) * 256 + b3 := rfl
  have e0 : (((b0 * 256 + b1) * 256 + b2) * 256 + b3) / 16777216 % 256 = b0 := by omega
  have e1 : (((b0 * 256 + b1) * 256 + b2) * 256 + b3) / 65536 % 256 = b1 := by omega
  have e2 : (((b0 * 256 + b1) * 256 + b2) * 256 + b3) / 256 % 256 = b2 := by omega
  have e3 : (((b0 * 256 + b1) * 256 + b2) * 256 + b3) % 256 = b3 := by omega
  show [_, _, _, _] = _
  rw [e, e0, e1, e2, e3]

theorem serialize_parse_roundtrip_aux :
    ∀ fuel P, P.length ≤ fuel → P.length % 4 = 0 → (∀ b ∈ P, b < 256) →
      serialize_words_be (sha256_parse_words P) = P := by
  intro fuel
  induction fuel with
  | zero =>
    intro P h _ _
    have hnil : P = [] := List.eq_nil_of_length_eq_zero (by omega)
    subst hnil
    rfl
  | succ fuel ih =>
    intro P hlen hmod hbound
    rcases P with _ | ⟨b0, P⟩
    · rfl
    rcases P with _ | ⟨b1, P⟩
    · simp at hmod
    rcases P with _ | ⟨b2, P⟩
    · simp at hmod
    rcases P with _ | ⟨b3, rest⟩
    · simp at hmod
    show u32_to_be_bytes (u32_from_be_bytes [b0, b1, b2, b3]) ++
        serialize_words_be (sha256_parse_words rest) = _
    rw [u32_be_bytes_roundtrip b0 b1 b2 b3
        (hbound b0 (by simp)) (hbound b1 (by simp)) (hbound b2 (by simp))
        (hbound b3 (by simp))]
    rw [ih rest (by simp only [List.length_cons] at hlen; omega)
        (by simp only [List.length_cons] at hmod; omega)
        (fun b hb => hbound b (by simp [hb]))]
    rfl

/-! ## Helper lemmas: readback scan -/

theorem scan_output_some (l : List Nat) :
    ∀ n, scan_output l = some n →
      n ≠ 0 ∧ ∃ i : Nat, l[i]? = some n ∧ ∀ j, j < i → l[j]? = some 0 := by
  induction l with
  | nil => intro n h; simp [scan_output] at h
  | cons x t ih =>
    intro n h
    by_cases hx : x ≠ 0
    · rw [scan_output, if_pos hx] at h
      obtain rfl : x = n := by injection h
      refine ⟨hx, 0, ?_, ?_⟩
      · rw [List.getElem?_cons_zero]
      · intro j hj
        omega
    · rw [scan_output, if_neg hx] at h
      obtain ⟨hn, i, hi, hprev⟩ := ih n h
      push_neg at hx
      refine ⟨hn, i + 1, ?_, ?_⟩
      · rw [List.getElem?_cons_succ]
        exact hi
      · intro j hj
        cases j with
        | zero => rw [List.getElem?_cons_zero, hx]
        | succ j =>
          rw [List.getElem?_cons_succ]
          exact hprev j (by omega)

theorem scan_output_none (l : List Nat) (h : ∀ x ∈ l, x = 0) :
    scan_output l = none := by
  induction l with
  | nil => rfl
  | cons x t ih =>
    have hx : x = 0 := h x (by simp)
    rw [scan_output, if_neg (by simpa using hx)]
    exact ih fun b hb => h b (by simp [hb])

/-! ## Helper lemmas: autotune sweep -/

theorem autotune_loop_stop (max : Nat) (times : Nat → Nat) (n bs bt : Nat)
    (tested : List Nat) (s : MinerState) (h : ¬ 2 ^ n ≤ max) :
    autotune_loop max times n bs bt tested s = (bs, bt, tested, s) := by
  rw [autotune_loop]
  exact dif_neg h

theorem autotune_loop_step (max : Nat) (times : Nat → Nat) (n bs bt : Nat)
    (tested : List Nat) (s : MinerState) (h : 2 ^ n ≤ max) :
    autotune_loop max times n bs bt tested s =
      if times n < bt then
        autotune_loop max times (n + 1) (2 ^ n) (times n) (tested ++ [2 ^ n])
          { s with wg_size := 2 ^ n, pipeline_wg := 2 ^ n % 65536 }
      else
        autotune_loop max times (n + 1) bs bt (tested ++ [2 ^ n])
          { s with wg_size := 2 ^ n, pipeline_wg := 2 ^ n % 65536 } := by
  rw [autotune_loop]
  exact dif_pos h

theorem autotune_loop_inv (max : Nat) (times : Nat → Nat) :
    ∀ fuel n bs bt tested s, max + 1 - 2 ^ n ≤ fuel →
      ((autotune_loop max times n bs bt tested s).1 = bs ∨
        (autotune_loop max times n bs bt tested s).1 ∈
          (autotune_loop max times n bs bt tested s).2.2.1) ∧
      (∀ x ∈ (autotune_loop max times n bs bt tested s).2.2.1,
        x ∈ tested ∨ ∃ k, n ≤ k ∧ 2 ^ k ≤ max ∧ x = 2 ^ k) ∧
      (∀ x ∈ tested, x ∈ (autotune_loop max times n bs bt tested s).2.2.1) ∧
      (2 ^ n ≤ max → 2 ^ n ∈ (autotune_loop max times n bs bt tested s).2.2.1) := by
  intro fuel
  induction fuel with
  | zero =>
    intro n bs bt tested s hf
    have h1 : 1 ≤ 2 ^ n := Nat.one_le_two_pow
    have hstop : ¬ 2 ^ n ≤ max := by omega
    rw [autotune_loop_stop max times n bs bt tested s hstop]
    refine ⟨Or.inl rfl, fun x hx => Or.inl hx, fun x hx => hx, fun hle => absurd hle hstop⟩
  | succ fuel ih =>
    intro n bs bt tested s hf
    by_cases hc : 2 ^ n ≤ max
    · have h2 : 2 ^ n < 2 ^ (n + 1) := by
        have h3 : 2 ^ (n + 1) = 2 ^ n * 2 := pow_succ 2 n
        have h4 : 1 ≤ 2 ^ n := Nat.one_le_two_pow
        omega
      have hm : max + 1 - 2 ^ (n + 1) ≤ fuel := by omega
      rw [autotune_loop_step max times n bs bt tested s hc]
      by_cases ht : times n < bt
      · rw [if_pos ht]
        obtain ⟨ih1, ih2, ih3, ih4⟩ := ih (n + 1) (2 ^ n) (times n) (tested ++ [2 ^ n])
          { s with wg_size := 2 ^ n, pipeline_wg := 2 ^ n % 65536 } hm
        refine ⟨?_, ?_, ?_, ?_⟩
        · rcases ih1 with h' | h'
          · right
            rw [h']
            exact ih3 _ (by simp)
          · right
            exact h'
        · intro x hx
          rcases ih2 x hx with hx' | ⟨k, hk1, hk2, hk3⟩
          · rcases List.mem_append.mp hx' with hx'' | hx''
            · exact Or.inl hx''
            · exact Or.inr ⟨n, Nat.le_refl n, hc, by simpa using hx''⟩
          · exact Or.inr ⟨k, by omega, hk2, hk3⟩
        · intro x hx
          exact ih3 x (by simp [hx])
        · intro _
          exact ih3 _ (by simp)
      · rw [if_neg ht]
        obtain ⟨ih1, ih2, ih3, ih4⟩ := ih (n + 1) bs bt (tested ++ [2 ^ n])
          { s with wg_size := 2 ^ n, pipeline_wg := 2 ^ n % 65536 } hm
        refine ⟨ih1, ?_, ?_, ?_⟩
        · intro x hx
          rcases ih2 x hx with hx' | ⟨k, hk1, hk2, hk3⟩
          · rcases List.mem_append.mp hx' with hx'' | hx''
            · exact Or.inl hx''
            · exact Or.inr ⟨n, Nat.le_refl n, hc, by simpa using hx''⟩
          · exact Or.inr ⟨k, by omega, hk2, hk3⟩
        · intro x hx
          exact ih3 x (by simp [hx])
        · intro _
          exact ih3 _ (by simp)
    · rw [autotune_loop_stop max times n bs bt tested s hc]
      refine ⟨Or.inl rfl, fun x hx => Or.inl hx, fun x hx => hx, fun hle => absurd hle hc⟩

/-! ## Helper lemmas: header parsing and serialization -/

theorem hex_to_32_bytes_length (s : List Char) (l : List Nat)
    (h : BlockHeader.hex_to_32_bytes s = Except.ok l) : l.length = 32 := by
  unfold BlockHeader.hex_to_32_bytes at h
  cases hd : hex_decode s with
  | error e =>
    rw [hd] at h
    simp at h
  | ok bytes =>
    rw [hd] at h
    have h' : (if bytes.length = 32 then (Except.ok bytes : Except HexError (List Nat))
        else Except.error HexError.InvalidStringLength) = Except.ok l := h
    by_cases hlen : bytes.length = 32
    · rw [if_pos hlen] at h'
      obtain rfl : bytes = l := by injection h'
      exact hlen
    · rw [if_neg hlen] at h'
      simp at h'

theorem BlockHeader.new_ok (v p m t b : List Char) (hdr : BlockHeader)
    (h : BlockHeader.new v p m t b = Except.ok hdr) :
    hdr.prev_hash.length = 32 ∧ hdr.merkle_root.length = 32 := by
  unfold BlockHeader.new at h
  cases hv : BlockHeader.hex_to_u32 v with
  | error e => rw [hv] at h; simp at h
  | ok version =>
    rw [hv] at h
    cases hp : BlockHeader.hex_to_32_bytes p with
    | error e => rw [hp] at h; simp at h
    | ok ph =>
      rw [hp] at h
      cases hm : BlockHeader.hex_to_32_bytes m with
      | error e => rw [hm] at h; simp at h
      | ok mr =>
        rw [hm] at h
        cases ht : BlockHeader.hex_to_u32 t with
        | error e => rw [ht] at h; simp at h
        | ok ts =>
          rw [ht] at h
          cases hb : BlockHeader.hex_to_u32 b with
          | error e => rw [hb] at h; simp at h
          | ok bits =>
            rw [hb] at h
            have hinj : (⟨version, ph, mr, ts, bits⟩ : BlockHeader) = hdr := by
              injection h
            rw [← hinj]
            exact ⟨hex_to_32_bytes_length p ph hp, hex_to_32_bytes_length m mr hm⟩

/-! ## Claim theorems -/

/-- Claim C2: for every 80-byte input H, the 128-byte result of
sha256_preprocess copies H into bytes 0..80, puts 0x80 at byte 80, zeros in
bytes 81..126, and the big-endian length encoding [0x02, 0x80] in bytes
126..128. -/
theorem sha256_preprocess_spec (H : List Nat) (h : H.length = 80) :
    (sha256_preprocess H).length = 128 ∧
    (sha256_preprocess H).take 80 = H ∧
    ((sha256_preprocess H).drop 80).take 1 = [0x80] ∧
    ((sha256_preprocess H).drop 81).take 45 = List.replicate 45 0 ∧
    (sha256_preprocess H).drop 126 = [0x02, 0x80] := by
  rw [sha256_preprocess_eq H h]
  refine ⟨?_, ?_, ?_, ?_, ?_⟩
  · simp [h]
  · exact List.take_left' h
  · rw [List.drop_left' h]
    rfl
  · rw [show (81 : Nat) = 80 + 1 by norm_num, ← List.drop_drop, List.drop_left' h]
    show (List.replicate 45 0 ++ [0x02, 0x80]).take 45 = List.replicate 45 0
    exact List.take_left' (by simp)
  · rw [show (126 : Nat) = 80 + 46 by norm_num, ← List.drop_drop, List.drop_left' h]
    decide

/-- Witness for C2 at the all-ones 80-byte header. -/
theorem sha256_preprocess_spec_witness :
    (List.replicate 80 1).length = 80 ∧
    ((sha256_preprocess (List.replicate 80 1)).length = 128 ∧
      (sha256_preprocess (List.replicate 80 1)).take 80 = List.replicate 80 1 ∧
      ((sha256_preprocess (List.replicate 80 1)).drop 80).take 1 = [0x80] ∧
      ((sha256_preprocess (List.replicate 80 1)).drop 81).take 45 = List.replicate 45 0 ∧
      (sha256_preprocess (List.replicate 80 1)).drop 126 = [0x02, 0x80]) :=
  ⟨by decide, sha256_preprocess_spec (List.replicate 80 1) (by decide)⟩

/-- Claim C8: for every 128-byte input P, re-serializing the 32 words of
sha256_parse_words P as big-endian 4-byte chunks yields P again. -/
theorem parse_words_roundtrip (P : List Nat) (hlen : P.length = 128)
    (hbytes : ∀ b ∈ P, b < 256) :
    serialize_words_be (sha256_parse_words P) = P :=
  serialize_parse_roundtrip_aux 128 P (by omega) (by omega) hbytes

set_option maxRecDepth 4000 in
/-- Witness for C8 at the constant-7 128-byte input. -/
theorem parse_words_roundtrip_witness :
    (List.replicate 128 7).length = 128 ∧ (∀ b ∈ List.replicate 128 7, b < 256) ∧
    serialize_words_be (sha256_parse_words (List.replicate 128 7)) =
      List.replicate 128 7 :=
  ⟨by decide, by decide,
    parse_words_roundtrip (List.replicate 128 7) (by decide) (by decide)⟩

/-- Claim C7: create_buffers fails on batch_size 0 with the invalid-batch-size
error and on batch_size u32::MAX with the overflow error, in both cases with
an empty allocation trace, i.e. before any buffer is allocated. -/
theorem create_buffers_validation (validation_error : Bool) :
    create_buffers 0 validation_error =
      (Except.error "Batch size can't be zero.", []) ∧
    create_buffers (2 ^ 32 - 1) validation_error =
      (Except.error "Batch size too large, caused overflow", []) :=
  ⟨rfl, rfl⟩

/-- Claim C3: with a successful mapping, a `Some n` result of run_batch means
`n` is the value of the first non-zero entry of the staged output array in
ascending lane order and `n ≠ 0`; an all-zero array yields `None`. -/
theorem run_batch_first_nonzero (words staging : List Nat) (s : MinerState) :
    (∀ n, (run_batch words true staging s).1 = Except.ok (some n) →
      n ≠ 0 ∧ ∃ i : Nat, staging[i]? = some n ∧ ∀ j, j < i → staging[j]? = some 0) ∧
    ((∀ x ∈ staging, x = 0) → (run_batch words true staging s).1 = Except.ok none) := by
  have h1 : (run_batch words true staging s).1 = Except.ok (scan_output staging) := rfl
  constructor
  · intro n hn
    rw [h1] at hn
    have hscan : scan_output staging = some n := by injection hn
    exact scan_output_some staging n hscan
  · intro hz
    rw [h1, scan_output_none staging hz]

/-- Witness for C3 at the staged array [0, 5, 7]. -/
theorem run_batch_first_nonzero_witness :
    (5 : Nat) ≠ 0 ∧ ∃ i : Nat, ([0, 5, 7] : List Nat)[i]? = some 5 ∧
      ∀ j, j < i → ([0, 5, 7] : List Nat)[j]? = some 0 :=
  (run_batch_first_nonzero [] [0, 5, 7] (GpuMiner.new Option.none)).1 5 rfl

/-- Claim C4: on every exit path of run_batch, winner or not and on a mapping
failure alike, the staging buffer is unmapped at the function boundary. -/
theorem run_batch_unmaps_staging (words : List Nat) (map_ok : Bool)
    (staging : List Nat) (s : MinerState) :
    (run_batch words map_ok staging s).2.staging_mapped = false := by
  cases map_ok
  · rfl
  · rfl

/-- Claim C9: run_batch never returns Ok(Some(0)): any reported nonce is
non-zero, so a lane whose marker is 0 is never surfaced. -/
theorem run_batch_nonzero_result (words : List Nat) (map_ok : Bool)
    (staging : List Nat) (s : MinerState) (n : Nat)
    (h : (run_batch words map_ok staging s).1 = Except.ok (some n)) : n ≠ 0 := by
  cases map_ok with
  | false => simp [run_batch] at h
  | true =>
    have h1 : (run_batch words true staging s).1 = Except.ok (scan_output staging) := rfl
    rw [h1] at h
    have hscan : scan_output staging = some n := by injection h
    exact (scan_output_some staging n hscan).1

/-- Witness for C9 at the staged array [0, 0, 9]. -/
theorem run_batch_nonzero_result_witness : (9 : Nat) ≠ 0 :=
  run_batch_nonzero_result [] true [0, 0, 9] (GpuMiner.new Option.none) 9 rfl

/-- Claim C10: a successful update_block stores a block whose 80-byte header is
all zero and whose transaction list is empty, so get_current_header afterwards
returns the all-zero 80-byte array, for any template and payout address. -/
theorem update_block_stores_zero_header (b : Bridge) (tmpl : BlockTemplate)
    (addr : String) (b' : Bridge)
    (h : b.update_block (Except.ok tmpl) addr = Except.ok b') :
    b'.block = some { header := List.replicate 80 0, transactions := [] } ∧
    b'.get_current_header = some (List.replicate 80 0) := by
  have h' : Except.ok ({ block := some (construct_block tmpl addr) } : Bridge) =
      Except.ok b' := h
  have hb : ({ block := some (construct_block tmpl addr) } : Bridge) = b' := by
    injection h'
  rw [← hb]
  exact ⟨rfl, rfl⟩

/-- Witness for C10 at the empty template and empty payout address. -/
theorem update_block_stores_zero_header_witness :
    (Bridge.mk (some (Block.mk (List.replicate 80 0) []))).block =
      some { header := List.replicate 80 0, transactions := [] } ∧
    (Bridge.mk (some (Block.mk (List.replicate 80 0) []))).get_current_header =
      some (List.replicate 80 0) :=
  update_block_stores_zero_header (Bridge.mk Option.none) tmpl0 payout0
    (Bridge.mk (some (Block.mk (List.replicate 80 0) []))) rfl

/-- Claim C1: for every hex 5-tuple that parses to a header, serializing,
appending the zero nonce, preprocessing, and parsing words gives a 32-word
array whose word 17 is the big-endian reinterpretation of serialized bytes
68..72 (the little-endian timestamp field) and whose word 19 is 0. -/
theorem header_words_timestamp_nonce (v p m t b : List Char) (hdr : BlockHeader)
    (hparse : BlockHeader.new v p m t b = Except.ok hdr) :
    (sha256_parse_words (sha256_preprocess (hdr.to_bytes ++ [0, 0, 0, 0]))).length = 32 ∧
    (sha256_parse_words (sha256_preprocess (hdr.to_bytes ++ [0, 0, 0, 0])))[17]? =
      some (u32_from_be_bytes ((hdr.to_bytes.drop 68).take 4)) ∧
    (hdr.to_bytes.drop 68).take 4 = u32_to_le_bytes hdr.timestamp ∧
    (sha256_parse_words (sha256_preprocess (hdr.to_bytes ++ [0, 0, 0, 0])))[19]? =
      some 0 := by
  obtain ⟨hp, hm⟩ := BlockHeader.new_ok v p m t b hdr hparse
  have hserlen : hdr.to_bytes.length = 76 := by
    simp [BlockHeader.to_bytes, u32_to_le_bytes, hp, hm]
  have hlen80 : (hdr.to_bytes ++ [0, 0, 0, 0]).length = 80 := by
    simp [hserlen]
  have hpad := sha256_preprocess_eq (hdr.to_bytes ++ [0, 0, 0, 0]) hlen80
  have hpadlen : (sha256_preprocess (hdr.to_bytes ++ [0, 0, 0, 0])).length = 128 := by
    rw [hpad]
    simp [hserlen]
  have hpre : (u32_to_le_bytes hdr.version ++ hdr.prev_hash ++ hdr.merkle_root).length
      = 68 := by
    simp [u32_to_le_bytes, hp, hm]
  have hser68 : (hdr.to_bytes.drop 68).take 4 = u32_to_le_bytes hdr.timestamp := by
    have hd : hdr.to_bytes =
        (u32_to_le_bytes hdr.version ++ hdr.prev_hash ++ hdr.merkle_root) ++
          (u32_to_le_bytes hdr.timestamp ++ u32_to_le_bytes hdr.bits) := by
      simp [BlockHeader.to_bytes, List.append_assoc]
    rw [hd, List.drop_left' hpre]
    exact List.take_left' (by simp [u32_to_le_bytes])
  have hfull : sha256_preprocess (hdr.to_bytes ++ [0, 0, 0, 0]) =
      (u32_to_le_bytes hdr.version ++ hdr.prev_hash ++ hdr.merkle_root) ++
        (u32_to_le_bytes hdr.timestamp ++ (u32_to_le_bytes hdr.bits ++
          ([0, 0, 0, 0] ++ 0x80 :: (List.replicate 45 0 ++ [0x02, 0x80])))) := by
    rw [hpad]
    simp [BlockHeader.to_bytes, List.append_assoc]
  have hpad68 : ((sha256_preprocess (hdr.to_bytes ++ [0, 0, 0, 0])).drop 68).take 4 =
      u32_to_le_bytes hdr.timestamp := by
    rw [hfull, List.drop_left' hpre]
    exact List.take_left' (by simp [u32_to_le_bytes])
  have hpre76 : ((u32_to_le_bytes hdr.version ++ hdr.prev_hash ++ hdr.merkle_root) ++
      (u32_to_le_bytes hdr.timestamp ++ u32_to_le_bytes hdr.bits)).length = 76 := by
    simp [u32_to_le_bytes, hp, hm]
  have hfull2 : sha256_preprocess (hdr.to_bytes ++ [0, 0, 0, 0]) =
      ((u32_to_le_bytes hdr.version ++ hdr.prev_hash ++ hdr.merkle_root) ++
        (u32_to_le_bytes hdr.timestamp ++ u32_to_le_bytes hdr.bits)) ++
        ([0, 0, 0, 0] ++ 0x80 :: (List.replicate 45 0 ++ [0x02, 0x80])) := by
    rw [hpad]
    simp [BlockHeader.to_bytes, List.append_assoc]
  have hpad76 : ((sha256_preprocess (hdr.to_bytes ++ [0, 0, 0, 0])).drop 76).take 4 =
      [0, 0, 0, 0] := by
    rw [hfull2, List.drop_left' hpre76]
    rfl
  refine ⟨?_, ?_, hser68, ?_⟩
  · rw [sha256_parse_words_length 128 _ (le_of_eq hpadlen), hpadlen]
  · rw [sha256_parse_words_getElem? 17 _ (by omega)]
    rw [show (4 * 17 : Nat) = 68 by norm_num]
    rw [hpad68, hser68]
  · rw [sha256_parse_words_getElem? 19 _ (by omega)]
    rw [show (4 * 19 : Nat) = 76 by norm_num]
    rw [hpad76]
    rfl

set_option maxRecDepth 4000 in
/-- Witness for C1 at the all-zero hex 5-tuple, which parses to hdr0. -/
theorem header_words_timestamp_nonce_witness :
    (sha256_parse_words (sha256_preprocess (hdr0.to_bytes ++ [0, 0, 0, 0]))).length = 32 ∧
    (sha256_parse_words (sha256_preprocess (hdr0.to_bytes ++ [0, 0, 0, 0])))[17]? =
      some (u32_from_be_bytes ((hdr0.to_bytes.drop 68).take 4)) ∧
    (hdr0.to_bytes.drop 68).take 4 = u32_to_le_bytes hdr0.timestamp ∧
    (sha256_parse_words (sha256_preprocess (hdr0.to_bytes ++ [0, 0, 0, 0])))[19]? =
      some 0 :=
  header_words_timestamp_nonce hex8 hex64 hex64 hex8 hex8 hdr0 rfl

/-- Counterexample to C5 as stated: at max_compute_workgroup_size_x = 16 the
sweep tests nothing (empty tested list) yet autotune stores wg_size = 32,
which is not in the interval [32, 16] because 16 < 32. -/
theorem autotune_wg_size_claim_counterexample :
    (autotune 16 (fun _ => 0) (GpuMiner.new Option.none)).1.wg_size = 32 ∧
    (autotune 16 (fun _ => 0) (GpuMiner.new Option.none)).2 = [] ∧
    16 < 32 := by
  have hstop := autotune_loop_stop 16 (fun _ => 0) 5 32 (2 ^ 128 - 1) []
    (GpuMiner.new Option.none) (by norm_num)
  have h1 : (autotune 16 (fun _ => 0) (GpuMiner.new Option.none)).1.wg_size =
      (autotune_loop 16 (fun _ => 0) 5 32 (2 ^ 128 - 1) [] (GpuMiner.new Option.none)).1 :=
    rfl
  have h2 : (autotune 16 (fun _ => 0) (GpuMiner.new Option.none)).2 =
      (autotune_loop 16 (fun _ => 0) 5 32 (2 ^ 128 - 1) [] (GpuMiner.new Option.none)).2.2.1 :=
    rfl
  refine ⟨?_, ?_, by norm_num⟩
  · rw [h1, hstop]
  · rw [h2, hstop]

/-- Claim C5 (amended): whenever max_compute_workgroup_size_x is at least 32
(and below 2^31, the range in which the source's u32 power-of-two sweep
terminates), the stored wg_size after autotune is a power of two in
[32, max] and is one of the sizes the sweep actually tested. -/
theorem autotune_result_tested (max : Nat) (times : Nat → Nat) (s : MinerState)
    (hmax : 32 ≤ max) (hmax31 : max < 2 ^ 31) :
    (∃ k : Nat, (autotune max times s).1.wg_size = 2 ^ k) ∧
    32 ≤ (autotune max times s).1.wg_size ∧
    (autotune max times s).1.wg_size ≤ max ∧
    (autotune max times s).1.wg_size ∈ (autotune max times s).2 := by
  obtain ⟨i1, i2, i3, i4⟩ :=
    autotune_loop_inv max times (max + 1) 5 32 (2 ^ 128 - 1) [] s (by omega)
  have h25 : (2 : Nat) ^ 5 ≤ max := by simpa using hmax
  have htested : (autotune_loop max times 5 32 (2 ^ 128 - 1) [] s).1 ∈
      (autotune_loop max times 5 32 (2 ^ 128 - 1) [] s).2.2.1 := by
    rcases i1 with h' | h'
    · rw [h']
      have h5 := i4 h25
      simpa using h5
    · exact h'
  rcases i2 _ htested with hfalse | ⟨k, hk1, hk2, hk3⟩
  · simp at hfalse
  have hwg : (autotune max times s).1.wg_size =
      (autotune_loop max times 5 32 (2 ^ 128 - 1) [] s).1 := rfl
  refine ⟨⟨k, ?_⟩, ?_, ?_, ?_⟩
  · rw [hwg, hk3]
  · rw [hwg, hk3]
    calc (32 : Nat) = 2 ^ 5 := by norm_num
      _ ≤ 2 ^ k := Nat.pow_le_pow_right (by norm_num) hk1
  · rw [hwg, hk3]
    exact hk2
  · exact htested

/-- Witness for C5 (amended) at max = 64 with constant timings. -/
theorem autotune_result_tested_witness :
    (32 ≤ 64 ∧ 64 < 2 ^ 31) ∧
    ((∃ k : Nat, (autotune 64 (fun _ => 1) (GpuMiner.new Option.none)).1.wg_size = 2 ^ k) ∧
      32 ≤ (autotune 64 (fun _ => 1) (GpuMiner.new Option.none)).1.wg_size ∧
      (autotune 64 (fun _ => 1) (GpuMiner.new Option.none)).1.wg_size ≤ 64 ∧
      (autotune 64 (fun _ => 1) (GpuMiner.new Option.none)).1.wg_size ∈
        (autotune 64 (fun _ => 1) (GpuMiner.new Option.none)).2) :=
  ⟨⟨by norm_num, by norm_num⟩,
    autotune_result_tested 64 (fun _ => 1) (GpuMiner.new Option.none)
      (by norm_num) (by norm_num)⟩

/-- Counterexample to C6 as stated: with construction-time wg_size = 64 and
max_compute_workgroup_size_x = 16 (no admissible W ≥ 32), autotune does not
retain the construction-time values: it installs 32. -/
theorem autotune_below_32_counterexample :
    (GpuMiner.new (some 64)).wg_size = 64 ∧
    (GpuMiner.new (some 64)).pipeline_wg = 64 ∧
    (autotune 16 (fun _ => 0) (GpuMiner.new (some 64))).1.wg_size = 32 ∧
    (autotune 16 (fun _ => 0) (GpuMiner.new (some 64))).1.pipeline_wg = 32 := by
  have hstop := autotune_loop_stop 16 (fun _ => 0) 5 32 (2 ^ 128 - 1) []
    (GpuMiner.new (some 64)) (by norm_num)
  have h1 : (autotune 16 (fun _ => 0) (GpuMiner.new (some 64))).1.wg_size =
      (autotune_loop 16 (fun _ => 0) 5 32 (2 ^ 128 - 1) [] (GpuMiner.new (some 64))).1 :=
    rfl
  have h2 : (autotune 16 (fun _ => 0) (GpuMiner.new (some 64))).1.pipeline_wg =
      (autotune_loop 16 (fun _ => 0) 5 32 (2 ^ 128 - 1) [] (GpuMiner.new (some 64))).1
        % 65536 := rfl
  refine ⟨rfl, rfl, ?_, ?_⟩
  · rw [h1, hstop]
  · rw [h2, hstop]
    norm_num

/-- Claim C6 (amended): if max_compute_workgroup_size_x is below 32, autotune
does not keep the construction-time configuration; it stores wg_size = 32
(best_size's initializer) and rebuilds the pipeline at workgroup size 32. -/
theorem autotune_below_32_sets_32 (max : Nat) (times : Nat → Nat) (s : MinerState)
    (hmax : max < 32) :
    (autotune max times s).1.wg_size = 32 ∧
    (autotune max times s).1.pipeline_wg = 32 := by
  have h32 : (2 : Nat) ^ 5 = 32 := by norm_num
  have hstop := autotune_loop_stop max times 5 32 (2 ^ 128 - 1) [] s (by omega)
  have h1 : (autotune max times s).1.wg_size =
      (autotune_loop max times 5 32 (2 ^ 128 - 1) [] s).1 := rfl
  have h2 : (autotune max times s).1.pipeline_wg =
      (autotune_loop max times 5 32 (2 ^ 128 - 1) [] s).1 % 65536 := rfl
  constructor
  · rw [h1, hstop]
  · rw [h2, hstop]
    norm_num

/-- Witness for C6 (amended) at max = 16 from the construction-time default. -/
theorem autotune_below_32_sets_32_witness :
    16 < 32 ∧
    ((autotune 16 (fun _ => 1) (GpuMiner.new Option.none)).1.wg_size = 32 ∧
      (autotune 16 (fun _ => 1) (GpuMiner.new Option.none)).1.pipeline_wg = 32) :=
  ⟨by norm_num,
    autotune_below_32_sets_32 16 (fun _ => 1) (GpuMiner.new Option.none) (by norm_num)⟩
